import Mathlib

/-!
Verification of `jist.py`, a small tool that uploads Jupyter notebooks to
GitHub gists via the external `gh` client.

The development shallowly embeds the program:

* text is `List Char` (Python `str` is a sequence of code points);
* the regular expression `https?://gist.github.com/(?P<GistId>[a-zA-Z0-9/_-]+)`
  together with `re.search` is embedded as an explicit leftmost scanner
  (`matchAt`, `find_gist_id`); the two `.` in the pattern are wildcards
  matching any character except a newline, exactly as in Python's `re`;
* notebook documents are records holding a format version and a cell list;
  cells carry the fields the program reads or writes;
* the external `gh` client is an oracle (`Client`) mapping each invocation to
  an exit code and the text the process wrote to its two output streams;
  `subprocess.run(check=True, stdout=PIPE)` is embedded by `runChecked`:
  only standard output is piped, so a failure carries the captured stdout
  and a `none` stderr, mirroring `CalledProcessError` for this call shape;
* the per-file driver (`main`'s loop body) is `process_file`, and the loop
  itself is `main_loop`; an uncaught subprocess failure aborts the run.
-/

/-! ## Gist-reference extractor (GIST_PATTERN, find_gist_id) -/

/-- The character class `[a-zA-Z0-9/_-]` of `GIST_PATTERN`. -/
def isGistChar (c : Char) : Bool :=
  c.isLower || c.isUpper || c.isDigit || c == '/' || c == '_' || c == '-'

/-- The literal chars of the `https://` branch of the scheme. -/
def httpsS : List Char := ['h', 't', 't', 'p', 's', ':', '/', '/']

/-- The literal chars of the `http://` branch of the scheme. -/
def httpS : List Char := ['h', 't', 't', 'p', ':', '/', '/']

/-- The literal chars `gist` of the pattern. -/
def gistS : List Char := ['g', 'i', 's', 't']

/-- The literal chars `github` of the pattern. -/
def githubS : List Char := ['g', 'i', 't', 'h', 'u', 'b']

/-- The literal chars `com/` of the pattern. -/
def comSlashS : List Char := ['c', 'o', 'm', '/']

/-- Strip a literal off the front of the input, or fail. -/
def dropPre : List Char → List Char → Option (List Char)
  | [], s => some s
  | _ :: _, [] => none
  | a :: p, b :: s => if b = a then dropPre p s else none

/-- Consume one character for the regex wildcard `.`
(which matches anything but a newline). -/
def dropDot : List Char → Option (List Char)
  | [] => none
  | c :: s => if c = '\n' then none else some s

/-- Consume the scheme `https?://`: the greedy `s?` tries `https://` first,
then falls back to `http://`. -/
def matchScheme (s : List Char) : Option (List Char) :=
  match dropPre httpsS s with
  | some r => some r
  | none => dropPre httpS s

/-- Match `GIST_PATTERN` anchored at the head of the input and return the
greedy capture of the group `GistId`, i.e. the maximal nonempty run of
class characters after `com/`. -/
def matchAt (s : List Char) : Option (List Char) :=
  (matchScheme s).bind fun s1 =>
  (dropPre gistS s1).bind fun s2 =>
  (dropDot s2).bind fun s3 =>
  (dropPre githubS s3).bind fun s4 =>
  (dropDot s4).bind fun s5 =>
  (dropPre comSlashS s5).bind fun s6 =>
  let g := s6.takeWhile isGistChar
  if g = [] then none else some g

/-- `find_gist_id` from jist.py: `GIST_PATTERN.search(text)` scans start
positions left to right and returns the capture at the first position where
the whole pattern matches, `none` when no position matches. -/
def find_gist_id : List Char → Option (List Char)
  | [] => none
  | c :: rest =>
    match matchAt (c :: rest) with
    | some g => some g
    | none => find_gist_id rest

/-! ## Declarative match predicates used to state the extractor claims -/

/-- `UrlShape t g` says the text `t` is exactly one whole match of
`GIST_PATTERN` with capture `g`: a scheme `https://` or `http://`, the
literal `gist`, one non-newline character, the literal `github`, one
non-newline character, the literal `com/`, and then the captured nonempty
run `g` of class characters. -/
def UrlShape (t g : List Char) : Prop :=
  ∃ c1 c2, c1 ≠ '\n' ∧ c2 ≠ '\n' ∧ g ≠ [] ∧ (∀ c ∈ g, isGistChar c = true) ∧
    (t = httpsS ++ (gistS ++ ([c1] ++ (githubS ++ ([c2] ++ (comSlashS ++ g))))) ∨
     t = httpS ++ (gistS ++ ([c1] ++ (githubS ++ ([c2] ++ (comSlashS ++ g))))))

/-- The remainder after a match may not start with a class character
(otherwise the greedy capture would have been longer). -/
def NotClassHead : List Char → Prop
  | [] => True
  | c :: _ => isGistChar c = false

/-- `MatchCapAt s i g`: the pattern matches in `s` starting at position `i`
with greedy capture `g`. -/
def MatchCapAt (s : List Char) (i : Nat) (g : List Char) : Prop :=
  ∃ t r, s.drop i = t ++ r ∧ UrlShape t g ∧ NotClassHead r

/-- The head chars `https://gist.` of the claim's URL shape, with a literal
dot. -/
def claimHead : List Char :=
  ['h', 't', 't', 'p', 's', ':', '/', '/', 'g', 'i', 's', 't', '.']

/-- The URL shape exactly as the claim words it: `https://gist.<host>/<path>`
with a literal `https` scheme and a literal dot after `gist`, an arbitrary
`<host>`, and a `<path>` of one or more class characters. -/
def ClaimUrlShape (t g : List Char) : Prop :=
  ∃ host, g ≠ [] ∧ (∀ c ∈ g, isGistChar c = true) ∧
    t = claimHead ++ (host ++ ('/' :: g))

/-- `ClaimMatchAt s i g`: some substring of `s` starting at position `i`
matches the claim's URL shape with path `g`. -/
def ClaimMatchAt (s : List Char) (i : Nat) (g : List Char) : Prop :=
  ∃ t r, s.drop i = t ++ r ∧ ClaimUrlShape t g

/-- The concrete text `http://gist.github.com/abc`. -/
def cexHttpText : List Char :=
  ['h', 't', 't', 'p', ':', '/', '/', 'g', 'i', 's', 't', '.',
   'g', 'i', 't', 'h', 'u', 'b', '.', 'c', 'o', 'm', '/', 'a', 'b', 'c']

/-! ## Notebook data model -/

/-- A notebook cell, holding the fields jist.py reads or writes.  The
payload of an output and a metadata value are opaque to the program, so they
are type parameters.  Metadata is an association list standing for the JSON
mapping (keys are unique in a real document, but no proof below needs
that). -/
structure Cell (ω μ : Type) where
  cell_type : String
  source : List Char
  outputs : List ω
  execution_count : Option Int
  metadata : List (String × μ)
deriving DecidableEq

/-- A notebook document: the declared format version (`none` when the
`nbformat` key is missing; the program then defaults it to 4) and the
ordered cell list. -/
structure Notebook (ω μ : Type) where
  nbformat : Option Int
  cells : List (Cell ω μ)
deriving DecidableEq

/-! ## Notebook reader (gist_url_from_notebook) -/

/-- `gist_url_from_notebook` from jist.py: `none` for an empty cell list or
a non-markdown first cell, otherwise the extractor applied to the first
cell's source. -/
def gist_url_from_notebook {ω μ : Type} (nb : Notebook ω μ) : Option (List Char) :=
  match nb.cells with
  | [] => none
  | head :: _ =>
    if head.cell_type ≠ "markdown" then none
    else find_gist_id head.source

/-- The reader as §4.2 of the spec words it: return absent if there are zero
cells or the first cell's kind is not markdown, else apply the extractor to
the first cell's source text. -/
def readerSpec {ω μ : Type} (nb : Notebook ω μ) : Option (List Char) :=
  match nb.cells.head? with
  | none => none
  | some c => if c.cell_type = "markdown" then find_gist_id c.source else none

/-! ## Notebook mutators (prepend_gist_url, strip_outputs) -/

/-- The chars of the fixed template prefix `Rendered at `. -/
def renderedAt : List Char :=
  ['R', 'e', 'n', 'd', 'e', 'r', 'e', 'd', ' ', 'a', 't', ' ']

/-- `nbformat.versions[v].new_markdown_cell(source=text)`: a fresh
markdown-kind cell with the given source, built by the constructor of major
format version `v`.  In this model every version's markdown cell carries the
same fields, so the version argument does not change the record. -/
def new_markdown_cell {ω μ : Type} (_v : Int) (source : List Char) : Cell ω μ :=
  { cell_type := "markdown"
    source := source
    outputs := []
    execution_count := none
    metadata := [] }

/-- `prepend_gist_url` from jist.py: build the announcement cell with the
notebook's declared format version capped at 4, and insert it at index 0. -/
def prepend_gist_url {ω μ : Type} (gist_url : List Char) (nb : Notebook ω μ) :
    Notebook ω μ :=
  let text := renderedAt ++ gist_url
  let nbf_version : Int := min 4 (nb.nbformat.getD 4)
  { nb with cells := new_markdown_cell nbf_version text :: nb.cells }

/-- `RM_META_FIELDS` from jist.py. -/
def RM_META_FIELDS : List String := ["collapsed", "scrolled"]

/-- The per-cell action of `strip_outputs`: a code cell loses its outputs,
its execution count, and the `collapsed`/`scrolled` metadata keys; any other
cell passes through unchanged. -/
def stripCell {ω μ : Type} (c : Cell ω μ) : Cell ω μ :=
  if c.cell_type = "code" then
    { c with
      outputs := []
      execution_count := none
      metadata := c.metadata.filter (fun p => !(RM_META_FIELDS.contains p.1)) }
  else c

/-- `strip_outputs` from jist.py, applied to every cell of the document. -/
def strip_outputs {ω μ : Type} (nb : Notebook ω μ) : Notebook ω μ :=
  { nb with cells := nb.cells.map stripCell }

/-! ## External client model (update_gist_file, create_gist) -/

/-- What one run of the external process produced: its exit status and the
text it wrote to each of its two output streams. -/
structure ProcResult where
  returncode : Int
  stdoutText : List Char
  stderrText : List Char
deriving DecidableEq

/-- The data `subprocess.CalledProcessError` carries for the call shape used
here: the exit code, the captured standard output (`output`), and the
captured standard error (`stderr`) — which is `none`, because the calls pipe
only standard output. -/
structure SubprocErr where
  returncode : Int
  output : Option (List Char)
  stderr : Option (List Char)
deriving DecidableEq

/-- A local notebook file handle: the path string passed on the command
line and its final component (`pathlib.Path.name`). -/
structure PFile where
  path : List Char
  name : List Char
deriving DecidableEq

/-- The external `gh` client as an oracle: what the process does for a
`gist edit` invocation (arguments: gist reference, local file path, file
name inside the gist) and for a `gist create` invocation (arguments: the
file paths). -/
structure Client where
  editRes : List Char → List Char → List Char → ProcResult
  createRes : List (List Char) → ProcResult

/-- `subprocess.run(args, check=True, stdout=PIPE, text=True)`: on exit
status 0 return the captured standard output; otherwise raise
`CalledProcessError` with the exit code, the captured standard output, and
no captured standard error (that stream was not piped). -/
def runChecked (r : ProcResult) : Except SubprocErr (List Char) :=
  if r.returncode = 0 then .ok r.stdoutText
  else .error { returncode := r.returncode
                output := some r.stdoutText
                stderr := none }

/-- `update_gist_file` from jist.py: run
`gh gist edit <gist_id> -f <file> <file.name>` with non-zero exit turned
into an exception. -/
def update_gist_file (cl : Client) (gist_id : List Char) (file : PFile) :
    Except SubprocErr (List Char) :=
  runChecked (cl.editRes gist_id file.path file.name)

/-- Python `str.strip()` on the trusted `gh` output: drop whitespace from
both ends (modelled with the ASCII whitespace class). -/
def pyStrip (s : List Char) : List Char :=
  ((s.dropWhile Char.isWhitespace).reverse.dropWhile Char.isWhitespace).reverse

/-- `create_gist` from jist.py: run `gh gist create <files>`; on success
apply the extractor to the stripped standard output. -/
def create_gist (cl : Client) (files : List PFile) :
    Except SubprocErr (Option (List Char)) :=
  match runChecked (cl.createRes (files.map PFile.path)) with
  | .error e => .error e
  | .ok out => .ok (find_gist_id (pyStrip out))

/-! ## Per-file driver (main) -/

/-- One invocation of the external client, as recorded by the driver. -/
inductive GistCall where
  | create (files : List (List Char))
  | edit (ref : List Char) (filePath : List Char) (fileName : List Char)
deriving DecidableEq

/-- The outcome of processing one file: the document written back, an early
skip with no write, or an uncaught subprocess exception.  Each outcome
records the client calls that were issued. -/
inductive StepOut (ω μ : Type) where
  | wrote (calls : List GistCall) (doc : Notebook ω μ)
  | skipped (calls : List GistCall)
  | raised (calls : List GistCall) (e : SubprocErr)
deriving DecidableEq

/-- The client calls an outcome records. -/
def callsOf {ω μ : Type} : StepOut ω μ → List GistCall
  | .wrote cs _ => cs
  | .skipped cs => cs
  | .raised cs _ => cs

/-- The document written back, if any. -/
def writtenDoc {ω μ : Type} : StepOut ω μ → Option (Notebook ω μ)
  | .wrote _ d => some d
  | .skipped _ => none
  | .raised _ _ => none

/-- Python truthiness of the `Optional[str]` reference: `None` and the empty
string are falsy. -/
def truthy : Option (List Char) → Bool
  | none => false
  | some s => !s.isEmpty

/-- The canonical URL the driver builds: `https://gist.github.com/` followed
by the reference. -/
def gist_url_of (g : List Char) : List Char :=
  httpsS ++ (gistS ++ ('.' :: (githubS ++ ('.' :: (comSlashS ++ g)))))

/-- The `else` branch of the driver: create a gist for the file; if the
client's output yields no truthy reference, skip (`continue`) without
touching the document; otherwise prepend the announcement, optionally strip
outputs, and write. -/
def create_branch {ω μ : Type} (cl : Client) (then_clear : Bool) (f : PFile)
    (parsed : Notebook ω μ) : StepOut ω μ :=
  match create_gist cl [f] with
  | .error e => .raised [GistCall.create [f.path]] e
  | .ok gid =>
    if truthy gid then
      match gid with
      | some g =>
        .wrote [GistCall.create [f.path]]
          (if then_clear then strip_outputs (prepend_gist_url (gist_url_of g) parsed)
           else prepend_gist_url (gist_url_of g) parsed)
      | none => .skipped [GistCall.create [f.path]]
    else .skipped [GistCall.create [f.path]]

/-- The body of `main`'s per-file loop: read the reference from the first
cell; a truthy reference selects the update branch (edit the gist named by
the canonical URL, no document mutation), otherwise the create branch;
finally apply `strip_outputs` when `--then-clear` was given and write the
document back. -/
def process_file {ω μ : Type} (cl : Client) (then_clear : Bool) (f : PFile)
    (parsed : Notebook ω μ) : StepOut ω μ :=
  if truthy (gist_url_from_notebook parsed) then
    match gist_url_from_notebook parsed with
    | some g =>
      match update_gist_file cl (gist_url_of g) f with
      | .error e => .raised [GistCall.edit (gist_url_of g) f.path f.name] e
      | .ok _ =>
        .wrote [GistCall.edit (gist_url_of g) f.path f.name]
          (if then_clear then strip_outputs parsed else parsed)
    | none => .skipped []
  else create_branch cl then_clear f parsed

/-- `main`'s loop over the input files, each paired with the document read
from it.  A raised subprocess exception is uncaught, so it ends the run;
a skip (`continue`) moves on to the next file. -/
def main_loop {ω μ : Type} (cl : Client) (then_clear : Bool) :
    List (PFile × Notebook ω μ) → List (PFile × StepOut ω μ)
  | [] => []
  | (f, nb) :: rest =>
    match process_file cl then_clear f nb with
    | .raised cs e => [(f, .raised cs e)]
    | r => (f, r) :: main_loop cl then_clear rest

/-! ## Concrete instances used in closed witness statements -/

/-- A client whose every invocation succeeds with output
`https://gist.github.com/xyz789`. -/
def okClient : Client where
  editRes := fun _ _ _ => ⟨0, [], []⟩
  createRes := fun _ =>
    ⟨0, gist_url_of ['x', 'y', 'z', '7', '8', '9'], []⟩

/-- A client whose every invocation fails with exit code 1, empty standard
output, and the text `boom` on standard error. -/
def boomClient : Client where
  editRes := fun _ _ _ => ⟨1, [], ['b', 'o', 'o', 'm']⟩
  createRes := fun _ => ⟨1, [], ['b', 'o', 'o', 'm']⟩

/-- A client whose create succeeds but whose output holds no gist URL. -/
def chattyClient : Client where
  editRes := fun _ _ _ => ⟨0, [], []⟩
  createRes := fun _ => ⟨0, ['o', 'k', '!', '\n'], []⟩

/-- The error raised by a `boomClient` invocation. -/
def boomErr : SubprocErr := ⟨1, some [], none⟩

/-- A concrete notebook file handle `nb.ipynb`. -/
def aFile : PFile :=
  ⟨['n', 'b', '.', 'i', 'p', 'y', 'n', 'b'], ['n', 'b', '.', 'i', 'p', 'y', 'n', 'b']⟩

/-- A concrete markdown cell whose source holds the reference `abc`. -/
def mdCellAbc : Cell Nat Nat :=
  { cell_type := "markdown"
    source := renderedAt ++ gist_url_of ['a', 'b', 'c']
    outputs := []
    execution_count := none
    metadata := [] }

/-- A concrete code cell with outputs, a count, and mixed metadata. -/
def codeCellFull : Cell Nat Nat :=
  { cell_type := "code"
    source := ['x']
    outputs := [7, 8]
    execution_count := some 3
    metadata := [("collapsed", 1), ("keep", 2), ("scrolled", 3)] }

/-- A concrete notebook whose first cell is `mdCellAbc`. -/
def nbWithRef : Notebook Nat Nat := ⟨some 4, [mdCellAbc, codeCellFull]⟩

/-- A concrete notebook with no cells (so no gist reference). -/
def nbEmpty : Notebook Nat Nat := ⟨some 4, []⟩

/-- A concrete notebook holding one code cell. -/
def nbCode : Notebook Nat Nat := ⟨some 3, [codeCellFull]⟩

/-! ## Lemmas about the anchored matcher -/

theorem dropPre_iff (p : List Char) : ∀ s r : List Char,
    dropPre p s = some r ↔ s = p ++ r := by
  induction p with
  | nil => intro s r; simp [dropPre]
  | cons a p ih =>
    intro s r
    cases s with
    | nil => simp [dropPre]
    | cons b s' =>
      by_cases h : b = a
      · subst h; simp [dropPre, ih]
      · simp [dropPre, h]

theorem dropPre_self (p r : List Char) : dropPre p (p ++ r) = some r :=
  (dropPre_iff p (p ++ r) r).mpr rfl

theorem dropDot_iff (s r : List Char) :
    dropDot s = some r ↔ ∃ c, c ≠ '\n' ∧ s = c :: r := by
  cases s with
  | nil => simp [dropDot]
  | cons c s' =>
    by_cases h : c = '\n'
    · subst h
      simp only [dropDot, if_pos rfl]
      constructor
      · intro hc; cases hc
      · rintro ⟨c', hc', heq⟩
        cases heq; exact absurd rfl hc'
    · simp only [dropDot, if_neg h]
      constructor
      · intro hc; cases hc; exact ⟨c, h, rfl⟩
      · rintro ⟨c', _, heq⟩; cases heq; rfl

theorem dropDot_cons {c : Char} (h : c ≠ '\n') (s : List Char) :
    dropDot (c :: s) = some s := by
  simp [dropDot, h]

theorem dropPre_https_of_http (r : List Char) :
    dropPre httpsS (httpS ++ r) = none := rfl

theorem matchScheme_iff (s r : List Char) :
    matchScheme s = some r ↔ (s = httpsS ++ r ∨ s = httpS ++ r) := by
  unfold matchScheme
  cases h : dropPre httpsS s with
  | some r' =>
    rw [dropPre_iff] at h
    subst h
    constructor
    · intro hr; cases hr; exact Or.inl rfl
    · rintro (heq | heq)
      · have : r' = r := List.append_cancel_left heq
        simp [this]
      · exfalso
        simp [httpsS, httpS] at heq
  | none =>
    rw [dropPre_iff]
    constructor
    · intro heq; exact Or.inr heq
    · rintro (heq | heq)
      · subst heq; rw [dropPre_self] at h; cases h
      · exact heq

theorem matchScheme_https (r : List Char) : matchScheme (httpsS ++ r) = some r :=
  (matchScheme_iff _ _).mpr (Or.inl rfl)

theorem matchScheme_http (r : List Char) : matchScheme (httpS ++ r) = some r :=
  (matchScheme_iff _ _).mpr (Or.inr rfl)

theorem takeWhile_class_append (g r : List Char)
    (hg : ∀ c ∈ g, isGistChar c = true) (hr : NotClassHead r) :
    (g ++ r).takeWhile isGistChar = g := by
  induction g with
  | nil =>
    cases r with
    | nil => rfl
    | cons c r' =>
      have hc : isGistChar c = false := hr
      simp [List.takeWhile_cons, hc]
  | cons a g' ih =>
    have ha : isGistChar a = true := hg a (by simp)
    simp only [List.cons_append, List.takeWhile_cons, ha, if_pos]
    rw [ih (fun c hc => hg c (by simp [hc]))]

theorem mem_takeWhile_class (s : List Char) :
    ∀ c ∈ s.takeWhile isGistChar, isGistChar c = true := by
  induction s with
  | nil => simp
  | cons a s' ih =>
    by_cases h : isGistChar a
    · simp only [List.takeWhile_cons_of_pos h, List.mem_cons]
      rintro c (rfl | hc)
      · exact h
      · exact ih c hc
    · simp [List.takeWhile_cons_of_neg h]

theorem notClassHead_dropWhile (s : List Char) :
    NotClassHead (s.dropWhile isGistChar) := by
  induction s with
  | nil => trivial
  | cons a s' ih =>
    by_cases h : isGistChar a
    · rw [List.dropWhile_cons_of_pos h]; exact ih
    · rw [List.dropWhile_cons_of_neg h]
      exact eq_false_of_ne_true h

theorem matchAt_some_iff (s g : List Char) :
    matchAt s = some g ↔ ∃ t r, s = t ++ r ∧ UrlShape t g ∧ NotClassHead r := by
  constructor
  · intro h
    simp only [matchAt, Option.bind_eq_some] at h
    obtain ⟨s1, hs1, s2, hs2, s3, hs3, s4, hs4, s5, hs5, s6, hs6, hfin⟩ := h
    rw [matchScheme_iff] at hs1
    rw [dropPre_iff] at hs2 hs6
    rw [dropDot_iff] at hs3 hs5
    rw [dropPre_iff] at hs4
    obtain ⟨c1, hc1, hs2'⟩ := hs3
    obtain ⟨c2, hc2, hs4'⟩ := hs5
    by_cases hg : s6.takeWhile isGistChar = []
    · rw [if_pos hg] at hfin; cases hfin
    · rw [if_neg hg] at hfin
      cases hfin
      have h6 : s6 = s6.takeWhile isGistChar ++ s6.dropWhile isGistChar :=
        (List.takeWhile_append_dropWhile isGistChar s6).symm
      rcases hs1 with hs1 | hs1
      · refine ⟨httpsS ++ (gistS ++ ([c1] ++ (githubS ++ ([c2] ++
            (comSlashS ++ s6.takeWhile isGistChar))))),
          s6.dropWhile isGistChar, ?_, ?_, notClassHead_dropWhile s6⟩
        · subst hs2' hs4' hs2 hs4 hs6 hs1
          conv_lhs => rw [h6]
          simp [List.append_assoc]
        · exact ⟨c1, c2, hc1, hc2, hg, mem_takeWhile_class s6, Or.inl rfl⟩
      · refine ⟨httpS ++ (gistS ++ ([c1] ++ (githubS ++ ([c2] ++
            (comSlashS ++ s6.takeWhile isGistChar))))),
          s6.dropWhile isGistChar, ?_, ?_, notClassHead_dropWhile s6⟩
        · subst hs2' hs4' hs2 hs4 hs6 hs1
          conv_lhs => rw [h6]
          simp [List.append_assoc]
        · exact ⟨c1, c2, hc1, hc2, hg, mem_takeWhile_class s6, Or.inr rfl⟩
  · rintro ⟨t, r, rfl, ⟨c1, c2, hc1, hc2, hgne, hgcls, hshape⟩, hr⟩
    have htake : (g ++ r).takeWhile isGistChar = g :=
      takeWhile_class_append g r hgcls hr
    rcases hshape with rfl | rfl
    · have hnorm :
          (httpsS ++ (gistS ++ ([c1] ++ (githubS ++ ([c2] ++ (comSlashS ++ g)))))) ++ r
            = httpsS ++ (gistS ++ (c1 :: (githubS ++ (c2 :: (comSlashS ++ (g ++ r)))))) := by
        simp [List.append_assoc]
      rw [hnorm]
      simp only [matchAt, matchScheme_https, Option.some_bind, dropPre_self,
        dropDot_cons hc1, dropDot_cons hc2]
      rw [htake, if_neg hgne]
    · have hnorm :
          (httpS ++ (gistS ++ ([c1] ++ (githubS ++ ([c2] ++ (comSlashS ++ g)))))) ++ r
            = httpS ++ (gistS ++ (c1 :: (githubS ++ (c2 :: (comSlashS ++ (g ++ r)))))) := by
        simp [List.append_assoc]
      rw [hnorm]
      simp only [matchAt, matchScheme_http, Option.some_bind, dropPre_self,
        dropDot_cons hc1, dropDot_cons hc2]
      rw [htake, if_neg hgne]

theorem urlShape_ne_nil {t g : List Char} (h : UrlShape t g) : t ≠ [] := by
  obtain ⟨c1, c2, _, _, _, _, hsh⟩ := h
  rcases hsh with rfl | rfl <;> simp [httpsS, httpS]

theorem matchCapAt_zero (s g : List Char) :
    MatchCapAt s 0 g ↔ matchAt s = some g := by
  rw [matchAt_some_iff]
  unfold MatchCapAt
  rw [List.drop_zero]

theorem matchCapAt_succ (c : Char) (s : List Char) (i : Nat) (g : List Char) :
    MatchCapAt (c :: s) (i + 1) g ↔ MatchCapAt s i g := by
  unfold MatchCapAt
  rw [List.drop_succ_cons]

theorem not_matchCapAt_nil (i : Nat) (g : List Char) : ¬ MatchCapAt [] i g := by
  rintro ⟨t, r, hdrop, hshape, _⟩
  rw [List.drop_nil] at hdrop
  have ht : t = [] := List.append_eq_nil.mp hdrop.symm |>.1
  exact urlShape_ne_nil hshape ht

theorem find_gist_id_none_some_iff (s : List Char) :
    (find_gist_id s = none ↔ ∀ i g, ¬ MatchCapAt s i g) ∧
    (∀ g, find_gist_id s = some g ↔
      ∃ i, MatchCapAt s i g ∧ ∀ j, j < i → ∀ g', ¬ MatchCapAt s j g') := by
  induction s with
  | nil =>
    constructor
    · exact iff_of_true rfl (fun i g => not_matchCapAt_nil i g)
    · intro g
      apply iff_of_false (by simp [find_gist_id])
      rintro ⟨i, hi, _⟩
      exact not_matchCapAt_nil i g hi
  | cons c s ih =>
    obtain ⟨ihn, ihs⟩ := ih
    cases hm : matchAt (c :: s) with
    | some g0 =>
      have h0 : MatchCapAt (c :: s) 0 g0 := (matchCapAt_zero _ _).mpr hm
      have hfind : find_gist_id (c :: s) = some g0 := by
        rw [find_gist_id, hm]
      constructor
      · apply iff_of_false (by simp [hfind])
        intro hall
        exact hall 0 g0 h0
      · intro g
        rw [hfind]
        constructor
        · intro hg
          cases hg
          exact ⟨0, h0, fun j hj => absurd hj (Nat.not_lt_zero j)⟩
        · rintro ⟨i, hi, hmin⟩
          cases i with
          | zero =>
            rw [matchCapAt_zero, hm] at hi
            exact hi
          | succ k =>
            exact absurd h0 (hmin 0 (Nat.succ_pos k) g0)
    | none =>
      have h0 : ∀ g', ¬ MatchCapAt (c :: s) 0 g' := by
        intro g' hg'
        rw [matchCapAt_zero, hm] at hg'
        cases hg'
      have hfind : find_gist_id (c :: s) = find_gist_id s := by
        rw [find_gist_id, hm]
      constructor
      · rw [hfind, ihn]
        constructor
        · intro hall i g
          cases i with
          | zero => exact h0 g
          | succ k => rw [matchCapAt_succ]; exact hall k g
        · intro hall i g
          have := hall (i + 1) g
          rwa [matchCapAt_succ] at this
      · intro g
        rw [hfind, ihs g]
        constructor
        · rintro ⟨i, hi, hmin⟩
          refine ⟨i + 1, (matchCapAt_succ c s i g).mpr hi, ?_⟩
          intro j hj g'
          cases j with
          | zero => exact h0 g'
          | succ k =>
            rw [matchCapAt_succ]
            exact hmin k (Nat.lt_of_succ_lt_succ hj) g'
        · rintro ⟨i, hi, hmin⟩
          cases i with
          | zero => exact absurd hi (h0 g)
          | succ k =>
            rw [matchCapAt_succ] at hi
            refine ⟨k, hi, ?_⟩
            intro j hj g' hg'
            exact hmin (j + 1) (Nat.succ_lt_succ hj) g'
              ((matchCapAt_succ c s j g').mpr hg')

theorem find_gist_id_props {s g : List Char} (h : find_gist_id s = some g) :
    g ≠ [] ∧ ∀ c ∈ g, isGistChar c = true := by
  obtain ⟨i, hi, -⟩ := ((find_gist_id_none_some_iff s).2 g).mp h
  obtain ⟨t, r, -, hshape, -⟩ := hi
  obtain ⟨c1, c2, -, -, hne, hcls, -⟩ := hshape
  exact ⟨hne, hcls⟩

theorem matchAt_ne_h {c : Char} (s : List Char) (h : c ≠ 'h') :
    matchAt (c :: s) = none := by
  have h1 : dropPre httpsS (c :: s) = none := by
    simp [httpsS, dropPre, h]
  have h2 : dropPre httpS (c :: s) = none := by
    simp [httpS, dropPre, h]
  simp [matchAt, matchScheme, h1, h2]

theorem find_gist_id_skip (p : List Char) (hp : ∀ c ∈ p, c ≠ 'h') :
    ∀ s, find_gist_id (p ++ s) = find_gist_id s := by
  induction p with
  | nil => intro s; rfl
  | cons a p' ih =>
    intro s
    have ha : a ≠ 'h' := hp a (by simp)
    rw [List.cons_append, find_gist_id, matchAt_ne_h _ ha]
    exact ih (fun c hc => hp c (by simp [hc])) s

theorem find_gist_id_of_matchAt {s g : List Char} (h : matchAt s = some g) :
    find_gist_id s = some g := by
  cases s with
  | nil =>
    rw [show matchAt [] = none from rfl] at h
    cases h
  | cons c s' =>
    rw [find_gist_id, h]

theorem matchAt_gist_url (g r : List Char) (hne : g ≠ [])
    (hcls : ∀ c ∈ g, isGistChar c = true) (hr : NotClassHead r) :
    matchAt (gist_url_of g ++ r) = some g := by
  apply (matchAt_some_iff _ g).mpr
  refine ⟨httpsS ++ (gistS ++ (['.'] ++ (githubS ++ (['.'] ++ (comSlashS ++ g))))),
    r, ?_, ?_, hr⟩
  · simp [gist_url_of, List.append_assoc]
  · exact ⟨'.', '.', by decide, by decide, hne, hcls, Or.inl rfl⟩

theorem cexHttpText_no_https :
    ∀ i, (cexHttpText.drop i).take 5 ≠ ['h', 't', 't', 'p', 's'] := by
  have hb : ∀ i < 26, (cexHttpText.drop i).take 5 ≠ ['h', 't', 't', 'p', 's'] := by
    decide
  intro i
  by_cases hi : i < 26
  · exact hb i hi
  · have hlen : cexHttpText.length ≤ i := by
      have : cexHttpText.length = 26 := rfl
      omega
    rw [List.drop_eq_nil_of_le hlen]
    simp

theorem no_claimMatchAt_cexHttpText : ∀ i g, ¬ ClaimMatchAt cexHttpText i g := by
  rintro i g ⟨t, r, hdrop, host, -, -, ht⟩
  subst ht
  apply cexHttpText_no_https i
  rw [hdrop]
  rfl

theorem filter_self_idem {α : Type} (p : α → Bool) (l : List α) :
    (l.filter p).filter p = l.filter p := by
  induction l with
  | nil => rfl
  | cons a t ih =>
    by_cases h : p a <;> simp [List.filter_cons, h, ih]

theorem stripCell_idem {ω μ : Type} (c : Cell ω μ) :
    stripCell (stripCell c) = stripCell c := by
  unfold stripCell
  by_cases h : c.cell_type = "code"
  · simp [h, filter_self_idem]
  · simp [h]

theorem reader_some_props {ω μ : Type} {nb : Notebook ω μ} {g : List Char}
    (h : gist_url_from_notebook nb = some g) :
    g ≠ [] ∧ ∀ c ∈ g, isGistChar c = true := by
  obtain ⟨v, cells⟩ := nb
  cases cells with
  | nil => cases h
  | cons head rest =>
    by_cases hm : head.cell_type = "markdown"
    · simp only [gist_url_from_notebook, hm, ne_eq, not_true_eq_false,
        if_false] at h
      exact find_gist_id_props h
    · simp [gist_url_from_notebook, hm] at h

theorem truthy_of_ne_nil {g : List Char} (hne : g ≠ []) :
    truthy (some g) = true := by
  obtain ⟨a, l, rfl⟩ := List.exists_cons_of_ne_nil hne
  rfl

/-! ## The claims -/

/-- C1 (amended): for every input text, `find_gist_id` returns `none`
exactly when no position of the text starts a substring matching the
pattern's real shape — scheme `http` or `https`, then `gist`, any
non-newline character, `github`, any non-newline character, `com/` (the
regex's two dots are wildcards), then a nonempty run of characters from
`[A-Za-z0-9/_-]` — and it returns `some g` exactly when the first
(leftmost) position carrying such a match does so with greedy capture
`g`. -/
theorem find_gist_id_first_match (s : List Char) :
    (find_gist_id s = none ↔ ∀ i g, ¬ MatchCapAt s i g) ∧
    (∀ g, find_gist_id s = some g ↔
      ∃ i, MatchCapAt s i g ∧ ∀ j, j < i → ∀ g', ¬ MatchCapAt s j g') :=
  find_gist_id_none_some_iff s

/-- C1 counterexample: on the text `http://gist.github.com/abc` the
extractor returns `abc`, although the text contains no substring of the
claimed shape `https://gist.<host>/<path>` at any position (it has no
`https` at all).  So "returns absent for every text that contains no such
substring" fails as stated. -/
theorem find_gist_id_https_only_cex :
    find_gist_id cexHttpText = some ['a', 'b', 'c'] ∧
    ∀ i g, ¬ ClaimMatchAt cexHttpText i g :=
  ⟨rfl, no_claimMatchAt_cexHttpText⟩

/-- C10: whenever the extractor returns a reference, it is a nonempty
string over `[A-Za-z0-9/_-]` — never the empty string — so the driver's
truthiness test on it cannot mistake a present reference for an absent
one. -/
theorem find_gist_id_result_nonempty (s g : List Char)
    (h : find_gist_id s = some g) :
    g ≠ [] ∧ (∀ c ∈ g, isGistChar c = true) ∧ truthy (some g) = true := by
  obtain ⟨hne, hcls⟩ := find_gist_id_props h
  exact ⟨hne, hcls, truthy_of_ne_nil hne⟩

/-- Witness for C10 at the concrete text `https://gist.github.com/x`. -/
theorem find_gist_id_result_nonempty_witness :
    (['x'] : List Char) ≠ [] ∧
    (∀ c ∈ (['x'] : List Char), isGistChar c = true) ∧
    truthy (some ['x']) = true :=
  find_gist_id_result_nonempty (gist_url_of ['x']) ['x'] rfl

/-- C2: `strip_outputs` is idempotent — applying it twice yields the same
document as applying it once. -/
theorem strip_outputs_idem {ω μ : Type} (nb : Notebook ω μ) :
    strip_outputs (strip_outputs nb) = strip_outputs nb := by
  unfold strip_outputs
  simp only [List.map_map]
  congr 1
  apply List.map_congr_left
  intro a _
  exact stripCell_idem a

/-- C5: the annotation reader returns absent for a document with zero cells
or a non-markdown first cell, and otherwise returns exactly the extractor's
result on the first cell's source text (`readerSpec` spells out that case
split). -/
theorem gist_url_from_notebook_spec {ω μ : Type} (nb : Notebook ω μ) :
    gist_url_from_notebook nb = readerSpec nb := by
  obtain ⟨v, cells⟩ := nb
  cases cells with
  | nil => rfl
  | cons c cs =>
    by_cases hc : c.cell_type = "markdown" <;>
      simp [gist_url_from_notebook, readerSpec, hc]

/-- C6: `prepend_gist_url` grows the cell list by exactly one, placing at
index 0 a markdown-kind cell whose source is the fixed template
`Rendered at` followed by the URL, built by the cell constructor of the
notebook's declared format version capped at 4; every pre-existing cell is
kept, in order, one index later, and nothing else in the document
changes. -/
theorem prepend_gist_url_spec {ω μ : Type} (url : List Char) (nb : Notebook ω μ) :
    (prepend_gist_url url nb).cells.length = nb.cells.length + 1 ∧
    (prepend_gist_url url nb).cells =
      new_markdown_cell (min 4 (nb.nbformat.getD 4)) (renderedAt ++ url)
        :: nb.cells ∧
    (new_markdown_cell (min 4 (nb.nbformat.getD 4)) (renderedAt ++ url)
      : Cell ω μ).cell_type = "markdown" ∧
    (new_markdown_cell (min 4 (nb.nbformat.getD 4)) (renderedAt ++ url)
      : Cell ω μ).source = renderedAt ++ url ∧
    (∀ i, (prepend_gist_url url nb).cells[i + 1]? = nb.cells[i]?) ∧
    (prepend_gist_url url nb).nbformat = nb.nbformat := by
  refine ⟨?_, rfl, rfl, rfl, ?_, rfl⟩
  · simp [prepend_gist_url]
  · intro i
    simp [prepend_gist_url]

/-- C7: reading back an annotated notebook recovers the reference — for any
document and any nonempty identifier over `[A-Za-z0-9/_-]`, prepending the
announcement for `https://gist.github.com/<identifier>` and then applying
the annotation reader yields that identifier. -/
theorem prepend_then_read {ω μ : Type} (nb : Notebook ω μ) (g : List Char)
    (hne : g ≠ []) (hcls : ∀ c ∈ g, isGistChar c = true) :
    gist_url_from_notebook (prepend_gist_url (gist_url_of g) nb) = some g := by
  have hm : matchAt (gist_url_of g ++ []) = some g :=
    matchAt_gist_url g [] hne hcls trivial
  rw [List.append_nil] at hm
  have hsrc : find_gist_id (renderedAt ++ gist_url_of g) = some g := by
    rw [find_gist_id_skip renderedAt (by decide)]
    exact find_gist_id_of_matchAt hm
  simp [gist_url_from_notebook, prepend_gist_url, new_markdown_cell, hsrc]

/-- Witness for C7 with the identifier `abc` and an empty notebook. -/
theorem prepend_then_read_witness :
    gist_url_from_notebook
      (prepend_gist_url (gist_url_of ['a', 'b', 'c']) nbEmpty)
      = some ['a', 'b', 'c'] :=
  prepend_then_read nbEmpty ['a', 'b', 'c'] (by decide) (by decide)

/-- C8: `strip_outputs` keeps the document's version and its cell count; a
code cell keeps its kind, source, and every metadata entry other than
`collapsed` and `scrolled` (exactly those two keys are removed), while its
outputs become empty and its execution count becomes none; any non-code
cell is left entirely unchanged. -/
theorem strip_outputs_frame {ω μ : Type} (nb : Notebook ω μ) (i : Nat)
    (c : Cell ω μ) (hc : nb.cells[i]? = some c) :
    (strip_outputs nb).nbformat = nb.nbformat ∧
    (strip_outputs nb).cells.length = nb.cells.length ∧
    ∃ c', (strip_outputs nb).cells[i]? = some c' ∧
      (c.cell_type ≠ "code" → c' = c) ∧
      (c.cell_type = "code" →
        c'.cell_type = c.cell_type ∧ c'.source = c.source ∧
        c'.outputs = [] ∧ c'.execution_count = none ∧
        ∀ k v, ((k, v) ∈ c'.metadata ↔
          (k, v) ∈ c.metadata ∧ k ≠ "collapsed" ∧ k ≠ "scrolled")) := by
  refine ⟨rfl, by simp [strip_outputs], stripCell c, ?_, ?_, ?_⟩
  · simp [strip_outputs, List.getElem?_map, hc]
  · intro h
    simp [stripCell, h]
  · intro h
    refine ⟨by simp [stripCell, h], by simp [stripCell, h],
      by simp [stripCell, h], by simp [stripCell, h], ?_⟩
    intro k v
    simp [stripCell, h, List.mem_filter, RM_META_FIELDS, and_assoc]

/-- Witness for C8 on a notebook holding one code cell with outputs, an
execution count, and `collapsed`, `keep`, `scrolled` metadata keys. -/
theorem strip_outputs_frame_witness :
    (strip_outputs nbCode).nbformat = nbCode.nbformat ∧
    (strip_outputs nbCode).cells.length = nbCode.cells.length ∧
    ∃ c', (strip_outputs nbCode).cells[0]? = some c' ∧
      (codeCellFull.cell_type ≠ "code" → c' = codeCellFull) ∧
      (codeCellFull.cell_type = "code" →
        c'.cell_type = codeCellFull.cell_type ∧
        c'.source = codeCellFull.source ∧
        c'.outputs = [] ∧ c'.execution_count = none ∧
        ∀ k v, ((k, v) ∈ c'.metadata ↔
          (k, v) ∈ codeCellFull.metadata ∧
            k ≠ "collapsed" ∧ k ≠ "scrolled")) :=
  strip_outputs_frame nbCode 0 codeCellFull rfl

/-- C3: when the first cell of the document carries a gist reference `g`,
the driver takes the update branch — the only client call is a gist-edit
naming the canonical URL `https://gist.github.com/` followed by `g`, with
the local file's path and the file's base name — and, when the clear option
is unset and the client succeeds, the document written back is exactly the
document read (no mutation at all). -/
theorem update_branch_spec {ω μ : Type} (cl : Client) (tc : Bool) (f : PFile)
    (nb : Notebook ω μ) (g : List Char)
    (h : gist_url_from_notebook nb = some g)
    (hok : (cl.editRes (gist_url_of g) f.path f.name).returncode = 0) :
    callsOf (process_file cl tc f nb) =
      [GistCall.edit (gist_url_of g) f.path f.name] ∧
    process_file cl false f nb =
      .wrote [GistCall.edit (gist_url_of g) f.path f.name] nb := by
  have htg : truthy (some g) = true :=
    truthy_of_ne_nil (reader_some_props h).1
  have hupd : update_gist_file cl (gist_url_of g) f =
      .ok (cl.editRes (gist_url_of g) f.path f.name).stdoutText := by
    unfold update_gist_file runChecked
    rw [if_pos hok]
  constructor <;> simp [process_file, h, htg, hupd, callsOf]

/-- Witness for C3: a notebook whose first cell is markdown holding
`https://gist.github.com/abc`, processed against an always-succeeding
client. -/
theorem update_branch_spec_witness :
    callsOf (process_file okClient true aFile nbWithRef) =
      [GistCall.edit (gist_url_of ['a', 'b', 'c']) aFile.path aFile.name] ∧
    process_file okClient false aFile nbWithRef =
      .wrote [GistCall.edit (gist_url_of ['a', 'b', 'c']) aFile.path aFile.name]
        nbWithRef :=
  update_branch_spec okClient true aFile nbWithRef ['a', 'b', 'c'] rfl rfl

/-- C4: when the document has no truthy gist reference and the client's
create call exits 0 but its output holds no recognizable reference, the
driver skips the file — the outcome records only the create call, no
document is written (no announcement, no stripping, file untouched) — and
the loop continues with the remaining files. -/
theorem create_skip_spec {ω μ : Type} (cl : Client) (tc : Bool) (f : PFile)
    (nb : Notebook ω μ) (rest : List (PFile × Notebook ω μ))
    (h1 : truthy (gist_url_from_notebook nb) = false)
    (h2 : (cl.createRes [f.path]).returncode = 0)
    (h3 : find_gist_id (pyStrip (cl.createRes [f.path]).stdoutText) = none) :
    process_file cl tc f nb = .skipped [GistCall.create [f.path]] ∧
    writtenDoc (process_file cl tc f nb) = none ∧
    main_loop cl tc ((f, nb) :: rest) =
      (f, .skipped [GistCall.create [f.path]]) :: main_loop cl tc rest := by
  have hcg : create_gist cl [f] = .ok none := by
    unfold create_gist runChecked
    simp only [List.map_cons, List.map_nil]
    rw [if_pos h2]
    simp [h3]
  have hpf : process_file cl tc f nb = .skipped [GistCall.create [f.path]] := by
    unfold process_file
    rw [h1]
    simp [create_branch, hcg, truthy]
  refine ⟨hpf, by rw [hpf]; rfl, ?_⟩
  simp [main_loop, hpf]

/-- Witness for C4: an empty notebook (no reference) and a client whose
create call succeeds with chatter holding no gist URL; a second file sits
behind it in the queue. -/
theorem create_skip_spec_witness :
    process_file chattyClient false aFile nbEmpty =
      .skipped [GistCall.create [aFile.path]] ∧
    writtenDoc (process_file chattyClient false aFile nbEmpty) = none ∧
    main_loop chattyClient false ((aFile, nbEmpty) :: [(aFile, nbEmpty)]) =
      (aFile, .skipped [GistCall.create [aFile.path]])
        :: main_loop chattyClient false [(aFile, nbEmpty)] :=
  create_skip_spec chattyClient false aFile nbEmpty [(aFile, nbEmpty)]
    rfl rfl rfl

/-- C9 (amended): an external-client invocation that exits non-zero makes
the operation fail with an error carrying the exit code and the captured
standard output — standard error is not piped, so the error's stderr field
is `none` — and a failed per-file run writes no document back. -/
theorem subprocess_failure_spec {ω μ : Type} (cl : Client) (g : List Char)
    (f : PFile) (fs : List PFile) (nb : Notebook ω μ) (tc : Bool)
    (calls : List GistCall) (e : SubprocErr)
    (hEdit : (cl.editRes g f.path f.name).returncode ≠ 0)
    (hCreate : (cl.createRes (fs.map PFile.path)).returncode ≠ 0)
    (hRaised : process_file cl tc f nb = .raised calls e) :
    update_gist_file cl g f =
      .error { returncode := (cl.editRes g f.path f.name).returncode
               output := some (cl.editRes g f.path f.name).stdoutText
               stderr := none } ∧
    create_gist cl fs =
      .error { returncode := (cl.createRes (fs.map PFile.path)).returncode
               output := some (cl.createRes (fs.map PFile.path)).stdoutText
               stderr := none } ∧
    writtenDoc (process_file cl tc f nb) = none := by
  refine ⟨?_, ?_, by rw [hRaised]; rfl⟩
  · unfold update_gist_file runChecked
    rw [if_neg hEdit]
  · unfold create_gist runChecked
    rw [if_neg hCreate]

/-- Witness for C9: the always-failing client raises on the update branch
of a referenced notebook, and both wrapped operations report exit code 1
with the captured (empty) stdout and no captured stderr. -/
theorem subprocess_failure_spec_witness :
    update_gist_file boomClient ['x'] aFile =
      .error { returncode := (boomClient.editRes ['x'] aFile.path aFile.name).returncode
               output := some (boomClient.editRes ['x'] aFile.path aFile.name).stdoutText
               stderr := none } ∧
    create_gist boomClient [aFile] =
      .error { returncode := (boomClient.createRes ([aFile].map PFile.path)).returncode
               output := some (boomClient.createRes ([aFile].map PFile.path)).stdoutText
               stderr := none } ∧
    writtenDoc (process_file boomClient false aFile nbWithRef) = none :=
  subprocess_failure_spec boomClient ['x'] aFile [aFile] nbWithRef false
    [GistCall.edit (gist_url_of ['a', 'b', 'c']) aFile.path aFile.name]
    boomErr (by decide) (by decide) rfl

/-- C9 counterexample: the claim says the failure error carries the
captured standard-error stream; here the process writes `boom` to standard
error and exits 1, yet the raised error's stderr field is `none` — the
stream is not captured (only stdout is piped). -/
theorem subprocess_stderr_cex :
    update_gist_file boomClient ['x'] aFile = .error boomErr ∧
    boomErr.stderr = none ∧
    (boomClient.editRes ['x'] aFile.path aFile.name).stderrText
      = ['b', 'o', 'o', 'm'] ∧
    boomErr.stderr ≠ some ['b', 'o', 'o', 'm'] :=
  ⟨rfl, rfl, rfl, by decide⟩
